import Mathlib

/-!
Verification of the order/top-up core of the `telegram_bot` repository.

The Python source (SQLAlchemy ORM over `models.py`, business logic in
`services.py`, controller glue in `routes.py`) is shallowly embedded as pure
Lean functions over an explicit database state `DB`.  Conventions:

* Monetary `Float` columns are modelled as exact rational amounts (`ℚ`); the
  source only ever compares, adds and subtracts them.
* An ORM session mutating fetched rows and committing is modelled as a pure
  function returning the updated `DB`; a rolled-back transaction returns the
  input `DB` unchanged.
* `commit_ok : Bool` in `create_order` injects the possibility that the final
  commit raises (the `except Exception` / `db.rollback()` path of
  `OrderService.create_order`); the unique index on `Order.product_code_id`
  declared in `models.py` is checked at that same commit point.
* Timestamps (`datetime.utcnow()`) are modelled by a `now : Nat` parameter.
-/

deriving instance DecidableEq for Except

namespace TelegramBot

abbrev Money := ℚ

inductive UserRole where
  | user
  | admin
  | superAdmin
deriving DecidableEq

inductive OrderStatus where
  | pending
  | completed
  | cancelled
deriving DecidableEq

inductive TopUpStatus where
  | pending
  | approved
  | rejected
deriving DecidableEq

inductive DeliveryType where
  | text
  | file
deriving DecidableEq

/-- Row of `users` (models.py `User`): audit timestamps are omitted. -/
structure User where
  id : Nat
  telegram_id : String
  username : String
  balance_usd : Money
  language : String
  role : UserRole
  is_banned : Bool
deriving DecidableEq

/-- Row of `products` (models.py `Product`). -/
structure Product where
  id : Nat
  name : String
  price_usd : Money
  is_active : Bool
deriving DecidableEq

/-- Row of `product_codes` (models.py `ProductCode`). -/
structure ProductCode where
  id : Nat
  product_id : Nat
  code : String
  is_sold : Bool
  sold_at : Option Nat
deriving DecidableEq

/-- Row of `orders` (models.py `Order`); `product_code_id` carries a unique
index, checked at commit time in `create_order`. -/
structure Order where
  id : Nat
  user_id : Nat
  product_id : Nat
  product_code_id : Nat
  price_usd : Money
  delivery_type : DeliveryType
  status : OrderStatus
deriving DecidableEq

/-- Row of `topups` (models.py `TopUp`). -/
structure TopUp where
  id : Nat
  user_id : Nat
  amount_usd : Money
  txid_or_note : String
  status : TopUpStatus
  approved_at : Option Nat
deriving DecidableEq

/-- Row of `admin_action_logs` (models.py `AdminActionLog`). -/
structure AdminActionLog where
  id : Nat
  admin_id : Nat
  action : String
deriving DecidableEq

/-- The whole persisted state, with per-table autoincrement counters. -/
structure DB where
  users : List User
  products : List Product
  codes : List ProductCode
  orders : List Order
  topups : List TopUp
  logs : List AdminActionLog
  nextUserId : Nat
  nextProductId : Nat
  nextCodeId : Nat
  nextOrderId : Nat
  nextTopupId : Nat
  nextLogId : Nat
deriving DecidableEq

/-- Python's `str.strip()`: drop leading and trailing whitespace.  (Defined
from character lists because `String.trim` does not reduce in the kernel.) -/
def pyStrip (s : String) : String :=
  ⟨((s.data.dropWhile Char.isWhitespace).reverse.dropWhile Char.isWhitespace).reverse⟩

/-- `UserService.get_user_by_telegram_id`: first user whose `telegram_id`
equals `str(telegram_id)`. -/
def get_user_by_telegram_id (db : DB) (telegram_id : Nat) : Option User :=
  db.users.find? (fun u => u.telegram_id == toString telegram_id)

/-- `UserService.get_or_create_user`: look the user up by Telegram id; create
a fresh row (balance 0, column defaults `language="en"`, `role=USER`,
`is_banned=False`) when absent, otherwise refresh the username if it
changed. -/
def get_or_create_user (db : DB) (telegram_id : Nat) (username : String) :
    User × DB :=
  match db.users.find? (fun u => u.telegram_id == toString telegram_id) with
  | none =>
      let u : User :=
        { id := db.nextUserId
          telegram_id := toString telegram_id
          username := username
          balance_usd := 0
          language := "en"
          role := UserRole.user
          is_banned := false }
      (u, { db with users := db.users ++ [u], nextUserId := db.nextUserId + 1 })
  | some u =>
      if u.username = username then
        (u, db)
      else
        let u' : User := { u with username := username }
        (u', { db with
                users := db.users.map (fun v =>
                  if v.telegram_id = toString telegram_id then
                    { v with username := username }
                  else v) })

/-- `UserService.set_language`. -/
def set_language (db : DB) (telegram_id : Nat) (lang_code : String) : DB :=
  match get_user_by_telegram_id db telegram_id with
  | none => db
  | some _ =>
      { db with
          users := db.users.map (fun v =>
            if v.telegram_id = toString telegram_id then
              { v with language := lang_code }
            else v) }

/-- `ProductService.get_product`. -/
def get_product (db : DB) (product_id : Nat) : Option Product :=
  db.products.find? (fun p => p.id == product_id)

/-- `ProductService.add_product`: inserts an active product. -/
def add_product (db : DB) (name : String) (price : Money) : Product × DB :=
  let p : Product :=
    { id := db.nextProductId, name := name, price_usd := price, is_active := true }
  (p, { db with products := db.products ++ [p],
                nextProductId := db.nextProductId + 1 })

/-- Loop body of `ProductService.add_codes`.  The session has
`autoflush=False` (db.py), so every existence check runs against the codes
committed before the call (`existing`), never against rows staged earlier in
the same loop.  Returns the staged rows, the running `count` and the next free
id. -/
def addCodesLoop (existing : List ProductCode) (product_id : Nat)
    (nextId : Nat) : List String → List ProductCode × Nat × Nat
  | [] => ([], 0, nextId)
  | code_str :: rest =>
      let s := pyStrip code_str
      if s = "" then
        addCodesLoop existing product_id nextId rest
      else if (existing.find? (fun c => c.code == s)).isSome then
        addCodesLoop existing product_id nextId rest
      else
        let c : ProductCode :=
          { id := nextId, product_id := product_id, code := s,
            is_sold := false, sold_at := none }
        let r := addCodesLoop existing product_id (nextId + 1) rest
        (c :: r.1, r.2.1 + 1, r.2.2)

/-- `ProductService.add_codes`: stage the new rows, then commit.  The commit
enforces the unique index on `ProductCode.code` (models.py); a violation
raises (`IntegrityError`), nothing is persisted, and the count is never
returned. -/
def add_codes (db : DB) (product_id : Nat) (codes_list : List String) :
    Except Unit (Nat × DB) :=
  if ((db.codes ++
      (addCodesLoop db.codes product_id db.nextCodeId codes_list).1).map
        (fun c => c.code)).Nodup then
    Except.ok
      ((addCodesLoop db.codes product_id db.nextCodeId codes_list).2.1,
       { db with
           codes := db.codes ++
             (addCodesLoop db.codes product_id db.nextCodeId codes_list).1,
           nextCodeId :=
             (addCodesLoop db.codes product_id db.nextCodeId codes_list).2.2 })
  else
    Except.error ()

/-- `OrderService.create_order`: balance check, first unsold code for the
product, then debit + mark-sold + order insert committed together.
`commit_ok := false` injects a raising commit; the commit also enforces the
unique index on `Order.product_code_id`.  Any failure rolls the transaction
back (the input `db` is returned unchanged). -/
def create_order (db : DB) (user : User) (product : Product) (now : Nat)
    (commit_ok : Bool) : (Option Order × String) × DB :=
  if user.balance_usd < product.price_usd then
    ((none, "insufficient_balance"), db)
  else
    match db.codes.find? (fun c => c.product_id == product.id && !c.is_sold) with
    | none => ((none, "out_of_stock"), db)
    | some code =>
        let users' := db.users.map (fun u =>
          if u.id = user.id then
            { u with balance_usd := u.balance_usd - product.price_usd }
          else u)
        let codes' := db.codes.map (fun c =>
          if c.id = code.id then
            { c with is_sold := true, sold_at := some now }
          else c)
        let order : Order :=
          { id := db.nextOrderId
            user_id := user.id
            product_id := product.id
            product_code_id := code.id
            price_usd := product.price_usd
            delivery_type := DeliveryType.text
            status := OrderStatus.completed }
        if commit_ok && db.orders.all (fun o => o.product_code_id != code.id) then
          ((some order, "success"),
           { db with users := users', codes := codes',
                     orders := db.orders ++ [order],
                     nextOrderId := db.nextOrderId + 1 })
        else
          ((none, "generic_error"), db)

/-- `routes.initiate_purchase`: resolve user and product; a missing or
inactive product is answered with `out_of_stock` before `create_order` is
ever called; a missing user raises inside the handler (surfaced as a generic
error, session rolled back). -/
def initiate_purchase (db : DB) (telegram_id : Nat) (product_id : Nat)
    (now : Nat) (commit_ok : Bool) : (Option Order × String) × DB :=
  match get_user_by_telegram_id db telegram_id with
  | none => ((none, "generic_error"), db)
  | some user =>
      match get_product db product_id with
      | none => ((none, "out_of_stock"), db)
      | some product =>
          if !product.is_active then
            ((none, "out_of_stock"), db)
          else
            create_order db user product now commit_ok

/-- `PaymentService.create_topup_request`: a pending request with amount 0;
raises `ValueError` when the user is unknown. -/
def create_topup_request (db : DB) (telegram_id : Nat) (method : String)
    (txid_note : String) : Except Unit (TopUp × DB) :=
  match get_user_by_telegram_id db telegram_id with
  | none => Except.error ()
  | some user =>
      let t : TopUp :=
        { id := db.nextTopupId
          user_id := user.id
          amount_usd := 0
          txid_or_note := method.toUpper ++ " | " ++ txid_note
          status := TopUpStatus.pending
          approved_at := none }
      Except.ok (t, { db with topups := db.topups ++ [t],
                              nextTopupId := db.nextTopupId + 1 })

/-- `AdminService.approve_topup`: only a `pending` request is approved; the
amount is stamped, the status flipped, the approval time set, the owning
user's balance credited (`if topup.user:` — only rows whose user exists are
credited, which the per-id map models) and an audit log row added, all in one
commit.  Any other state returns `False` and changes nothing. -/
def approve_topup (db : DB) (topup_id : Nat) (admin_id : Nat)
    (actual_amount : Money) (now : Nat) : Bool × DB :=
  match db.topups.find? (fun t => t.id == topup_id) with
  | none => (false, db)
  | some topup =>
      if topup.status = TopUpStatus.pending then
        let topups' := db.topups.map (fun t =>
          if t.id = topup.id then
            { t with amount_usd := actual_amount,
                     status := TopUpStatus.approved,
                     approved_at := some now }
          else t)
        let users' := db.users.map (fun u =>
          if u.id = topup.user_id then
            { u with balance_usd := u.balance_usd + actual_amount }
          else u)
        let log : AdminActionLog :=
          { id := db.nextLogId, admin_id := admin_id, action := "Approved TopUp" }
        (true, { db with topups := topups', users := users',
                         logs := db.logs ++ [log],
                         nextLogId := db.nextLogId + 1 })
      else
        (false, db)

/-- `AdminService.ban_user`. -/
def ban_user (db : DB) (target_user_id : Nat) (admin_id : Nat) : DB :=
  match db.users.find? (fun u => u.id == target_user_id) with
  | none => db
  | some _ =>
      let log : AdminActionLog :=
        { id := db.nextLogId, admin_id := admin_id, action := "Banned user" }
      { db with
          users := db.users.map (fun u =>
            if u.id = target_user_id then { u with is_banned := true } else u),
          logs := db.logs ++ [log],
          nextLogId := db.nextLogId + 1 }

/-- Modelled from the spec: no operation under `src/` mutates
`Product.price_usd` ("unit price … immutable per product but order snapshots
it"; "changing a Product's price after Order creation does not alter the
historical Order's recorded price").  This admin-side price change is the
operation those sentences quantify over. -/
def set_price (db : DB) (product_id : Nat) (new_price : Money) : DB :=
  { db with
      products := db.products.map (fun p =>
        if p.id = product_id then { p with price_usd := new_price } else p) }

/-- Every state-mutating operation of the system. -/
inductive Op where
  | getOrCreateUser (telegram_id : Nat) (username : String)
  | setLanguage (telegram_id : Nat) (lang_code : String)
  | addProduct (name : String) (price : Money)
  | addCodes (product_id : Nat) (codes_list : List String)
  | placeOrder (telegram_id : Nat) (product_id : Nat) (now : Nat) (commit_ok : Bool)
  | requestTopUp (telegram_id : Nat) (method : String) (txid_note : String)
  | approveTopUp (topup_id : Nat) (admin_id : Nat) (actual_amount : Money) (now : Nat)
  | banUser (target_user_id : Nat) (admin_id : Nat)
  | setPrice (product_id : Nat) (new_price : Money)

/-- State transition of a single operation (results discarded; a raising
operation leaves the committed state unchanged). -/
def step (db : DB) : Op → DB
  | Op.getOrCreateUser tid un => (get_or_create_user db tid un).2
  | Op.setLanguage tid lc => set_language db tid lc
  | Op.addProduct n pr => (add_product db n pr).2
  | Op.addCodes pid cs =>
      match add_codes db pid cs with
      | Except.ok r => r.2
      | Except.error _ => db
  | Op.placeOrder tid pid now ok => (initiate_purchase db tid pid now ok).2
  | Op.requestTopUp tid m note =>
      match create_topup_request db tid m note with
      | Except.ok r => r.2
      | Except.error _ => db
  | Op.approveTopUp tid aid amt now => (approve_topup db tid aid amt now).2
  | Op.banUser uid aid => ban_user db uid aid
  | Op.setPrice pid pr => set_price db pid pr

/-- Run a whole sequence of operations. -/
def run (db : DB) : List Op → DB
  | [] => db
  | op :: ops => run (step db op) ops

/-- Number of unsold codes a product has in stock
(cf. `ProductService.get_stock_count`). -/
def unsoldCount (db : DB) (product_id : Nat) : Nat :=
  db.codes.countP (fun c => c.product_id == product_id && !c.is_sold)

/-- A sequence of `PlaceOrder` calls for one product, returning the final
state together with every call's result message. -/
def runOrders (product_id : Nat) : DB → List (Nat × Nat) → DB × List String
  | db, [] => (db, [])
  | db, (tid, now) :: rest =>
      let r := initiate_purchase db tid product_id now true
      let next := runOrders product_id r.2 rest
      (next.1, r.1.2 :: next.2)

/-- How many calls in a result list succeeded. -/
def successCount (msgs : List String) : Nat :=
  msgs.countP (fun s => s == "success")

/-- Well-formedness of the user table: distinct primary keys below the
autoincrement counter, and only non-negative balances. -/
def UserInv (db : DB) : Prop :=
  (db.users.map (fun u => u.id)).Nodup ∧
  (∀ u ∈ db.users, u.id < db.nextUserId) ∧
  (∀ u ∈ db.users, 0 ≤ u.balance_usd)

/-- Guard on a single operation: an admin-approved credit carries a
non-negative amount (the code itself never checks this). -/
def opOK : Op → Prop
  | Op.approveTopUp _ _ amt _ => 0 ≤ amt
  | _ => True

/-- Every order row references a code row that is marked sold. -/
def SoldOK (db : DB) : Prop :=
  ∀ o ∈ db.orders, ∃ c ∈ db.codes,
    c.id = o.product_code_id ∧ c.is_sold = true

/-- Witness row: user 1 with balance 10. -/
def aliceW : User :=
  { id := 1, telegram_id := "1", username := "alice", balance_usd := 10,
    language := "en", role := UserRole.user, is_banned := false }

/-- Witness row: user 2 with balance 0. -/
def bobW : User :=
  { id := 2, telegram_id := "2", username := "bob", balance_usd := 0,
    language := "en", role := UserRole.user, is_banned := false }

/-- Witness row: active product 1 at price 5. -/
def product1W : Product :=
  { id := 1, name := "product_60_uc", price_usd := 5, is_active := true }

/-- Witness row: inactive product 2 at price 7. -/
def product2W : Product :=
  { id := 2, name := "product_325_uc", price_usd := 7, is_active := false }

/-- Witness row: first unsold code of product 1. -/
def code1W : ProductCode :=
  { id := 1, product_id := 1, code := "CODE-A", is_sold := false,
    sold_at := none }

/-- Witness row: second unsold code of product 1. -/
def code2W : ProductCode :=
  { id := 2, product_id := 1, code := "CODE-B", is_sold := false,
    sold_at := none }

/-- Witness row: pending top-up request of user 1, amount still 0. -/
def topup1W : TopUp :=
  { id := 1, user_id := 1, amount_usd := 0, txid_or_note := "BINANCE | x",
    status := TopUpStatus.pending, approved_at := none }

/-- Witness row: pending top-up request owned by user 2 (balance 0). -/
def topupC2W : TopUp :=
  { id := 1, user_id := 2, amount_usd := 0, txid_or_note := "USDT | y",
    status := TopUpStatus.pending, approved_at := none }

/-- Store with a single user of balance 0 holding a pending top-up request:
the input of the C2 counterexample. -/
def dbC2 : DB :=
  { users := [bobW]
    products := []
    codes := []
    orders := []
    topups := [topupC2W]
    logs := []
    nextUserId := 3
    nextProductId := 1
    nextCodeId := 1
    nextOrderId := 1
    nextTopupId := 2
    nextLogId := 1 }

/-- The order row created when alice buys product 1 on the sample store. -/
def order1W : Order :=
  { id := 1, user_id := 1, product_id := 1, product_code_id := 1,
    price_usd := 5, delivery_type := DeliveryType.text,
    status := OrderStatus.completed }

/-- Sample store used by the concrete witnesses: two users (balances 10
and 0), an active product 1 at price 5 with two unsold codes, an inactive
product 2, and a pending top-up request of user 1. -/
def dbW : DB :=
  { users := [aliceW, bobW]
    products := [product1W, product2W]
    codes := [code1W, code2W]
    orders := []
    topups := [topup1W]
    logs := []
    nextUserId := 3
    nextProductId := 3
    nextCodeId := 3
    nextOrderId := 1
    nextTopupId := 2
    nextLogId := 1 }

lemma map_key_map {α : Type} (key : α → Nat) (g : α → α) (k : Nat)
    (hg : ∀ x, key (g x) = key x) (l : List α) :
    (l.map (fun x => if key x = k then g x else x)).map key = l.map key := by
  induction l with
  | nil => rfl
  | cons x xs ih => by_cases h : key x = k <;> simp [h, hg, ih]

lemma find?_key_map {α : Type} (key : α → Nat) (g : α → α) (k j : Nat)
    (hg : ∀ x, key (g x) = key x) (l : List α) :
    (l.map (fun x => if key x = k then g x else x)).find? (fun x => key x == j)
      = (l.find? (fun x => key x == j)).map
          (fun x => if key x = k then g x else x) := by
  have hp : ((fun x => key x == j) ∘ (fun x => if key x = k then g x else x))
      = (fun x => key x == j) := by
    funext x
    by_cases h : key x = k <;> simp [h, hg, Function.comp]
  rw [List.find?_map, hp]

lemma map_id_of_fix {α : Type} (f : α → α) (l : List α)
    (h : ∀ x ∈ l, f x = x) : l.map f = l := by
  induction l with
  | nil => rfl
  | cons x xs ih =>
      simp only [List.map_cons, h x (List.mem_cons_self x xs)]
      rw [ih (fun y hy => h y (List.mem_cons_of_mem x hy))]

lemma countP_key_update {α : Type} (key : α → Nat) (q : α → Bool) (g : α → α)
    (c : α) (l : List α) (hn : (l.map key).Nodup) (hc : c ∈ l)
    (hq : q c = true) (hgq : q (g c) = false) :
    (l.map (fun x => if key x = key c then g x else x)).countP q + 1
      = l.countP q := by
  induction l with
  | nil => cases hc
  | cons x xs ih =>
      rw [List.map_cons, List.nodup_cons] at hn
      by_cases hx : key x = key c
      · have hcx : c = x := by
          rcases List.mem_cons.mp hc with h1 | hmem
          · exact h1
          · exfalso
            apply hn.1
            rw [hx]
            exact List.mem_map_of_mem key hmem
        subst hcx
        have htail : xs.map (fun x => if key x = key c then g x else x) = xs := by
          apply map_id_of_fix
          intro y hy
          have hk : key y ≠ key c := by
            intro hk
            apply hn.1
            rw [hx, ← hk]
            exact List.mem_map_of_mem key hy
          simp [hk]
        simp [hx, htail, List.countP_cons, hq, hgq]
      · have hmem : c ∈ xs := by
          rcases List.mem_cons.mp hc with h1 | hmem
          · subst h1
            exact absurd rfl hx
          · exact hmem
        have hcount := ih hn.2 hmem
        simp only [List.map_cons, if_neg hx, List.countP_cons]
        omega

lemma nodup_snoc {α : Type} [DecidableEq α] (l : List α) (x : α)
    (h : l.Nodup) (hx : x ∉ l) : (l ++ [x]).Nodup := by
  simp [List.nodup_append, h, hx]

lemma create_order_insufficient (db : DB) (user : User) (product : Product)
    (now : Nat) (ok : Bool) (h : user.balance_usd < product.price_usd) :
    create_order db user product now ok = ((none, "insufficient_balance"), db) := by
  simp [create_order, h]

lemma create_order_no_code (db : DB) (user : User) (product : Product)
    (now : Nat) (ok : Bool) (hbal : ¬ user.balance_usd < product.price_usd)
    (hfind : db.codes.find? (fun c => c.product_id == product.id && !c.is_sold)
      = none) :
    create_order db user product now ok = ((none, "out_of_stock"), db) := by
  simp [create_order, hbal, hfind]

lemma create_order_commit_fail (db : DB) (user : User) (product : Product)
    (now : Nat) (ok : Bool) (code : ProductCode)
    (hbal : ¬ user.balance_usd < product.price_usd)
    (hfind : db.codes.find? (fun c => c.product_id == product.id && !c.is_sold)
      = some code)
    (hguard : (ok && db.orders.all (fun o => o.product_code_id != code.id))
      = false) :
    create_order db user product now ok = ((none, "generic_error"), db) := by
  simp [create_order, hbal, hfind, hguard]

lemma create_order_success_eq (db : DB) (user : User) (product : Product)
    (now : Nat) (ok : Bool) (code : ProductCode)
    (hbal : ¬ user.balance_usd < product.price_usd)
    (hfind : db.codes.find? (fun c => c.product_id == product.id && !c.is_sold)
      = some code)
    (hguard : (ok && db.orders.all (fun o => o.product_code_id != code.id))
      = true) :
    create_order db user product now ok =
      ((some { id := db.nextOrderId, user_id := user.id,
               product_id := product.id, product_code_id := code.id,
               price_usd := product.price_usd,
               delivery_type := DeliveryType.text,
               status := OrderStatus.completed }, "success"),
       { db with
           users := db.users.map (fun u =>
             if u.id = user.id then
               { u with balance_usd := u.balance_usd - product.price_usd }
             else u),
           codes := db.codes.map (fun c =>
             if c.id = code.id then
               { c with is_sold := true, sold_at := some now }
             else c),
           orders := db.orders ++
             [{ id := db.nextOrderId, user_id := user.id,
                product_id := product.id, product_code_id := code.id,
                price_usd := product.price_usd,
                delivery_type := DeliveryType.text,
                status := OrderStatus.completed }],
           nextOrderId := db.nextOrderId + 1 }) := by
  simp [create_order, hbal, hfind, hguard]

lemma initiate_no_user (db : DB) (tid pid now : Nat) (ok : Bool)
    (hu : get_user_by_telegram_id db tid = none) :
    initiate_purchase db tid pid now ok = ((none, "generic_error"), db) := by
  simp [initiate_purchase, hu]

lemma initiate_no_product (db : DB) (tid pid now : Nat) (ok : Bool)
    (user : User) (hu : get_user_by_telegram_id db tid = some user)
    (hp : get_product db pid = none) :
    initiate_purchase db tid pid now ok = ((none, "out_of_stock"), db) := by
  simp [initiate_purchase, hu, hp]

lemma initiate_inactive (db : DB) (tid pid now : Nat) (ok : Bool)
    (user : User) (product : Product)
    (hu : get_user_by_telegram_id db tid = some user)
    (hp : get_product db pid = some product)
    (ha : product.is_active = false) :
    initiate_purchase db tid pid now ok = ((none, "out_of_stock"), db) := by
  simp [initiate_purchase, hu, hp, ha]

lemma initiate_active (db : DB) (tid pid now : Nat) (ok : Bool)
    (user : User) (product : Product)
    (hu : get_user_by_telegram_id db tid = some user)
    (hp : get_product db pid = some product)
    (ha : product.is_active = true) :
    initiate_purchase db tid pid now ok = create_order db user product now ok := by
  simp [initiate_purchase, hu, hp, ha]

lemma initiate_not_success (db : DB) (tid pid now : Nat) (ok : Bool)
    (h : (initiate_purchase db tid pid now ok).1.2 ≠ "success") :
    (initiate_purchase db tid pid now ok).2 = db := by
  cases hu : get_user_by_telegram_id db tid with
  | none => rw [initiate_no_user db tid pid now ok hu]
  | some user =>
      cases hp : get_product db pid with
      | none => rw [initiate_no_product db tid pid now ok user hu hp]
      | some product =>
          cases ha : product.is_active with
          | false => rw [initiate_inactive db tid pid now ok user product hu hp ha]
          | true =>
              rw [initiate_active db tid pid now ok user product hu hp ha] at h ⊢
              by_cases hbal : user.balance_usd < product.price_usd
              · rw [create_order_insufficient db user product now ok hbal]
              · cases hf : db.codes.find?
                    (fun c => c.product_id == product.id && !c.is_sold) with
                | none => rw [create_order_no_code db user product now ok hbal hf]
                | some code =>
                    cases hg : ok && db.orders.all
                        (fun o => o.product_code_id != code.id) with
                    | false =>
                        rw [create_order_commit_fail db user product now ok code
                          hbal hf hg]
                    | true =>
                        exfalso
                        apply h
                        rw [create_order_success_eq db user product now ok code
                          hbal hf hg]

lemma initiate_success_inversion (db : DB) (tid pid now : Nat) (ok : Bool)
    (h : (initiate_purchase db tid pid now ok).1.2 = "success") :
    ∃ user product code,
      get_user_by_telegram_id db tid = some user ∧
      get_product db pid = some product ∧
      product.is_active = true ∧
      ¬ user.balance_usd < product.price_usd ∧
      db.codes.find? (fun c => c.product_id == product.id && !c.is_sold)
        = some code ∧
      (∀ o ∈ db.orders, o.product_code_id ≠ code.id) ∧
      (initiate_purchase db tid pid now ok).2 =
        { db with
            users := db.users.map (fun u =>
              if u.id = user.id then
                { u with balance_usd := u.balance_usd - product.price_usd }
              else u),
            codes := db.codes.map (fun c =>
              if c.id = code.id then
                { c with is_sold := true, sold_at := some now }
              else c),
            orders := db.orders ++
              [{ id := db.nextOrderId, user_id := user.id,
                 product_id := product.id, product_code_id := code.id,
                 price_usd := product.price_usd,
                 delivery_type := DeliveryType.text,
                 status := OrderStatus.completed }],
            nextOrderId := db.nextOrderId + 1 } := by
  cases hu : get_user_by_telegram_id db tid with
  | none => rw [initiate_no_user db tid pid now ok hu] at h; simp at h
  | some user =>
      cases hp : get_product db pid with
      | none =>
          rw [initiate_no_product db tid pid now ok user hu hp] at h
          simp at h
      | some product =>
          cases ha : product.is_active with
          | false =>
              rw [initiate_inactive db tid pid now ok user product hu hp ha] at h
              simp at h
          | true =>
              rw [initiate_active db tid pid now ok user product hu hp ha] at h ⊢
              by_cases hbal : user.balance_usd < product.price_usd
              · rw [create_order_insufficient db user product now ok hbal] at h
                simp at h
              · cases hf : db.codes.find?
                    (fun c => c.product_id == product.id && !c.is_sold) with
                | none =>
                    rw [create_order_no_code db user product now ok hbal hf] at h
                    simp at h
                | some code =>
                    cases hg : ok && db.orders.all
                        (fun o => o.product_code_id != code.id) with
                    | false =>
                        rw [create_order_commit_fail db user product now ok code
                          hbal hf hg] at h
                        simp at h
                    | true =>
                        refine ⟨user, product, code, rfl, rfl, ha, hbal, hf, ?_, ?_⟩
                        · intro o ho
                          have hall := (Bool.and_eq_true _ _).mp hg
                          have hone := (List.all_eq_true.mp hall.2) o ho
                          exact bne_iff_ne.mp hone
                        · rw [create_order_success_eq db user product now ok code
                            hbal hf hg]

lemma initiate_codes_ids (db : DB) (tid pid now : Nat) (ok : Bool) :
    (initiate_purchase db tid pid now ok).2.codes.map (fun c => c.id)
      = db.codes.map (fun c => c.id) := by
  by_cases h : (initiate_purchase db tid pid now ok).1.2 = "success"
  · obtain ⟨user, product, code, hu, hp, ha, hbal, hf, hdisj, heq⟩ :=
      initiate_success_inversion db tid pid now ok h
    rw [heq]
    exact map_key_map (fun c => c.id)
      (fun c => { c with is_sold := true, sold_at := some now })
      code.id (fun c => rfl) db.codes
  · rw [initiate_not_success db tid pid now ok h]

lemma successCount_cons (m : String) (ms : List String) :
    successCount (m :: ms)
      = successCount ms + (if m == "success" then 1 else 0) :=
  List.countP_cons _ _ _

lemma initiate_success_unsold (db : DB) (tid pid now : Nat) (ok : Bool)
    (hids : (db.codes.map (fun c => c.id)).Nodup)
    (h : (initiate_purchase db tid pid now ok).1.2 = "success") :
    unsoldCount (initiate_purchase db tid pid now ok).2 pid + 1
      = unsoldCount db pid := by
  obtain ⟨user, product, code, hu, hp, ha, hbal, hf, hdisj, heq⟩ :=
    initiate_success_inversion db tid pid now ok h
  have hpid : product.id = pid := by
    have := List.find?_some hp
    simpa using this
  have hq : (fun c => c.product_id == pid && !c.is_sold) code = true := by
    have := List.find?_some hf
    rw [hpid] at this
    exact this
  rw [heq]
  unfold unsoldCount
  exact countP_key_update (fun c => c.id)
    (fun c => c.product_id == pid && !c.is_sold)
    (fun c => { c with is_sold := true, sold_at := some now })
    code db.codes hids (List.mem_of_find?_eq_some hf) hq (by simp)

lemma initiate_orders_nodup (db : DB) (tid pid now : Nat) (ok : Bool)
    (hord : (db.orders.map (fun o => o.product_code_id)).Nodup) :
    ((initiate_purchase db tid pid now ok).2.orders.map
      (fun o => o.product_code_id)).Nodup := by
  by_cases h : (initiate_purchase db tid pid now ok).1.2 = "success"
  · obtain ⟨user, product, code, hu, hp, ha, hbal, hf, hdisj, heq⟩ :=
      initiate_success_inversion db tid pid now ok h
    rw [heq]
    simp only [List.map_append, List.map_cons, List.map_nil]
    apply nodup_snoc _ _ hord
    intro hmem
    obtain ⟨o, ho, hoid⟩ := List.mem_map.mp hmem
    exact hdisj o ho hoid
  · rw [initiate_not_success db tid pid now ok h]
    exact hord

lemma initiate_soldOK (db : DB) (tid pid now : Nat) (ok : Bool)
    (hs : SoldOK db) : SoldOK (initiate_purchase db tid pid now ok).2 := by
  by_cases h : (initiate_purchase db tid pid now ok).1.2 = "success"
  · obtain ⟨user, product, code, hu, hp, ha, hbal, hf, hdisj, heq⟩ :=
      initiate_success_inversion db tid pid now ok h
    rw [heq]
    intro o ho
    simp only [List.mem_append, List.mem_cons, List.not_mem_nil, or_false] at ho
    rcases ho with ho | ho
    · obtain ⟨c, hc, hcid, hcs⟩ := hs o ho
      refine ⟨if c.id = code.id then
          { c with is_sold := true, sold_at := some now } else c,
        List.mem_map_of_mem _ hc, ?_⟩
      by_cases hcc : c.id = code.id
      · simp only [if_pos hcc]
        exact ⟨hcid, trivial⟩
      · simp only [if_neg hcc]
        exact ⟨hcid, hcs⟩
    · refine ⟨{ code with is_sold := true, sold_at := some now }, ?_, ?_⟩
      · have := List.mem_map_of_mem
          (fun c => if c.id = code.id then
            { c with is_sold := true, sold_at := some now } else c)
          (List.mem_of_find?_eq_some hf)
        simpa using this
      · subst ho
        exact ⟨rfl, rfl⟩
  · rw [initiate_not_success db tid pid now ok h]
    exact hs

lemma runOrders_codes_ids (pid : Nat) (db : DB) (calls : List (Nat × Nat)) :
    (runOrders pid db calls).1.codes.map (fun c => c.id)
      = db.codes.map (fun c => c.id) := by
  induction calls generalizing db with
  | nil => rfl
  | cons c rest ih =>
      obtain ⟨tid, now⟩ := c
      simp only [runOrders]
      rw [ih, initiate_codes_ids]

lemma runOrders_unsold (pid : Nat) (db : DB) (calls : List (Nat × Nat))
    (hids : (db.codes.map (fun c => c.id)).Nodup) :
    unsoldCount (runOrders pid db calls).1 pid
        + successCount (runOrders pid db calls).2 = unsoldCount db pid := by
  induction calls generalizing db with
  | nil => simp [runOrders, successCount]
  | cons c rest ih =>
      obtain ⟨tid, now⟩ := c
      have hids' : ((initiate_purchase db tid pid now true).2.codes.map
          (fun c => c.id)).Nodup := by
        rw [initiate_codes_ids]
        exact hids
      have hrest := ih (initiate_purchase db tid pid now true).2 hids'
      simp only [runOrders, successCount_cons]
      by_cases h : (initiate_purchase db tid pid now true).1.2 = "success"
      · have hstep := initiate_success_unsold db tid pid now true hids h
        simp only [h]
        have htrue : (("success" : String) == "success") = true := by decide
        rw [htrue]
        simp only [if_true]
        omega
      · have hframe := initiate_not_success db tid pid now true h
        rw [hframe]
        have hne : ((initiate_purchase db tid pid now true).1.2 == "success")
            = false := by
          simp [h]
        rw [hne]
        simp only [Bool.false_eq_true, if_false]
        rw [hframe] at hrest
        omega

lemma runOrders_orders_nodup (pid : Nat) (db : DB) (calls : List (Nat × Nat))
    (hord : (db.orders.map (fun o => o.product_code_id)).Nodup) :
    ((runOrders pid db calls).1.orders.map
      (fun o => o.product_code_id)).Nodup := by
  induction calls generalizing db with
  | nil => exact hord
  | cons c rest ih =>
      obtain ⟨tid, now⟩ := c
      simp only [runOrders]
      exact ih _ (initiate_orders_nodup db tid pid now true hord)

lemma runOrders_soldOK (pid : Nat) (db : DB) (calls : List (Nat × Nat))
    (hs : SoldOK db) : SoldOK (runOrders pid db calls).1 := by
  induction calls generalizing db with
  | nil => exact hs
  | cons c rest ih =>
      obtain ⟨tid, now⟩ := c
      simp only [runOrders]
      exact ih _ (initiate_soldOK db tid pid now true hs)

lemma create_order_exhausted (db : DB) (pid : Nat) (user : User)
    (product : Product) (now : Nat) (ok : Bool)
    (hzero : unsoldCount db pid = 0) (hpid : product.id = pid)
    (hbal : ¬ user.balance_usd < product.price_usd) :
    create_order db user product now ok = ((none, "out_of_stock"), db) := by
  apply create_order_no_code db user product now ok hbal
  apply List.find?_eq_none.mpr
  intro c hc
  have := List.countP_eq_zero.mp hzero c hc
  rw [hpid]
  exact this

/-- C1: with exactly `unsoldCount db pid` unsold codes in stock, any sequence
of `PlaceOrder` calls for that product has at most that many successes
(successes exactly account for the consumed stock); the order rows keep
referencing pairwise distinct codes, every order's code is marked sold, and
once the successes have exhausted the stock any further call by a user with
sufficient balance fails with `out_of_stock`. -/
theorem c1_no_double_sell (db : DB) (pid : Nat) (calls : List (Nat × Nat))
    (hids : (db.codes.map (fun c => c.id)).Nodup)
    (hord : (db.orders.map (fun o => o.product_code_id)).Nodup)
    (hsold : SoldOK db) :
    successCount (runOrders pid db calls).2 ≤ unsoldCount db pid ∧
    unsoldCount (runOrders pid db calls).1 pid
        + successCount (runOrders pid db calls).2 = unsoldCount db pid ∧
    ((runOrders pid db calls).1.orders.map
      (fun o => o.product_code_id)).Nodup ∧
    SoldOK (runOrders pid db calls).1 ∧
    (successCount (runOrders pid db calls).2 = unsoldCount db pid →
      ∀ (user : User) (product : Product) (now : Nat) (ok : Bool),
        product.id = pid →
        ¬ user.balance_usd < product.price_usd →
        create_order (runOrders pid db calls).1 user product now ok
          = ((none, "out_of_stock"), (runOrders pid db calls).1)) := by
  have he := runOrders_unsold pid db calls hids
  refine ⟨by omega, he,
    runOrders_orders_nodup pid db calls hord,
    runOrders_soldOK pid db calls hsold, ?_⟩
  intro hN user product now ok hpid hbal
  exact create_order_exhausted (runOrders pid db calls).1 pid user product
    now ok (by omega) hpid hbal

/-- C1 at a concrete input: user 1 (balance 10) hammers product 1 (price 5,
2 codes in stock) three times. -/
theorem c1_no_double_sell_witness :
    successCount (runOrders 1 dbW [(1, 0), (1, 1), (1, 2)]).2
        ≤ unsoldCount dbW 1 ∧
    unsoldCount (runOrders 1 dbW [(1, 0), (1, 1), (1, 2)]).1 1
        + successCount (runOrders 1 dbW [(1, 0), (1, 1), (1, 2)]).2
      = unsoldCount dbW 1 :=
  ⟨(c1_no_double_sell dbW 1 [(1, 0), (1, 1), (1, 2)] (by decide) (by decide)
      (by unfold SoldOK; decide)).1,
   (c1_no_double_sell dbW 1 [(1, 0), (1, 1), (1, 2)] (by decide) (by decide)
      (by unfold SoldOK; decide)).2.1⟩

/-- C5: when `create_order` answers `insufficient_balance` or `out_of_stock`
it returns no order and the whole state is unchanged (no code marked sold, no
order row, no debit); moreover `insufficient_balance` means the balance was
below the price, and `out_of_stock` means no unsold code of the product
exists. -/
theorem c5_failure_no_side_effects (db : DB) (user : User) (product : Product)
    (now : Nat) (ok : Bool)
    (h : (create_order db user product now ok).1.2 = "insufficient_balance" ∨
         (create_order db user product now ok).1.2 = "out_of_stock") :
    (create_order db user product now ok).1.1 = none ∧
    (create_order db user product now ok).2 = db ∧
    ((create_order db user product now ok).1.2 = "insufficient_balance" →
      user.balance_usd < product.price_usd) ∧
    ((create_order db user product now ok).1.2 = "out_of_stock" →
      db.codes.find? (fun c => c.product_id == product.id && !c.is_sold)
        = none) := by
  by_cases hbal : user.balance_usd < product.price_usd
  · rw [create_order_insufficient db user product now ok hbal]
    exact ⟨rfl, rfl, fun _ => hbal, fun hx => by simp at hx⟩
  · cases hf : db.codes.find? (fun c => c.product_id == product.id && !c.is_sold) with
    | none =>
        rw [create_order_no_code db user product now ok hbal hf]
        exact ⟨rfl, rfl, fun hx => by simp at hx, fun _ => rfl⟩
    | some code =>
        cases hg : ok && db.orders.all (fun o => o.product_code_id != code.id) with
        | false =>
            rw [create_order_commit_fail db user product now ok code hbal hf hg]
              at h
            rcases h with hx | hx <;> simp at hx
        | true =>
            rw [create_order_success_eq db user product now ok code hbal hf hg]
              at h
            rcases h with hx | hx <;> simp at hx

/-- C5 at a concrete input: bob (balance 0) cannot afford product 1; the
store is returned untouched. -/
theorem c5_failure_no_side_effects_witness :
    (create_order dbW bobW product1W 0 true).1.1 = none ∧
    (create_order dbW bobW product1W 0 true).2 = dbW ∧
    ((create_order dbW bobW product1W 0 true).1.2 = "insufficient_balance" →
      bobW.balance_usd < product1W.price_usd) ∧
    ((create_order dbW bobW product1W 0 true).1.2 = "out_of_stock" →
      dbW.codes.find? (fun c => c.product_id == product1W.id && !c.is_sold)
        = none) :=
  c5_failure_no_side_effects dbW bobW product1W 0 true (Or.inl (by decide))

/-- C6: once an unsold code has been selected and the balance check passed,
a raising commit (any exception before the transaction is persisted, modelled
by `commit_ok = false`, or the unique-index violation on
`Order.product_code_id`) rolls everything back: the call returns
`(none, "generic_error")` and the state — code still unsold, no order row,
balance undebited — is exactly the input state. -/
theorem c6_exception_rolls_back (db : DB) (user : User) (product : Product)
    (now : Nat) (code : ProductCode)
    (hbal : ¬ user.balance_usd < product.price_usd)
    (hfind : db.codes.find? (fun c => c.product_id == product.id && !c.is_sold)
      = some code) :
    create_order db user product now false = ((none, "generic_error"), db) ∧
    (db.orders.all (fun o => o.product_code_id != code.id) = false →
      create_order db user product now true = ((none, "generic_error"), db)) := by
  constructor
  · exact create_order_commit_fail db user product now false code hbal hfind
      (by simp)
  · intro hdup
    exact create_order_commit_fail db user product now true code hbal hfind
      (by simp [hdup])

/-- C6 at a concrete input: alice buys product 1 (code 1 is selected) but the
commit raises; the state is returned unchanged. -/
theorem c6_exception_rolls_back_witness :
    create_order dbW aliceW product1W 0 false
      = ((none, "generic_error"), dbW) :=
  (c6_exception_rolls_back dbW aliceW product1W 0 code1W (by decide)
    (by decide)).1

/-- C7: `PlaceOrder` checks its preconditions in a fixed order.  A missing
or inactive product fails with `out_of_stock` whatever the balance or stock;
otherwise a balance below the price fails with `insufficient_balance` even
when the product is also out of stock; otherwise the absence of an unsold
code fails with `out_of_stock`.  All failures leave the state unchanged. -/
theorem c7_precondition_order (db : DB) (tid pid now : Nat) (ok : Bool)
    (user : User) (hu : get_user_by_telegram_id db tid = some user) :
    (get_product db pid = none →
      initiate_purchase db tid pid now ok = ((none, "out_of_stock"), db)) ∧
    (∀ product, get_product db pid = some product →
      product.is_active = false →
      initiate_purchase db tid pid now ok = ((none, "out_of_stock"), db)) ∧
    (∀ product, get_product db pid = some product →
      product.is_active = true →
      user.balance_usd < product.price_usd →
      initiate_purchase db tid pid now ok
        = ((none, "insufficient_balance"), db)) ∧
    (∀ product, get_product db pid = some product →
      product.is_active = true →
      ¬ user.balance_usd < product.price_usd →
      db.codes.find? (fun c => c.product_id == product.id && !c.is_sold)
        = none →
      initiate_purchase db tid pid now ok = ((none, "out_of_stock"), db)) := by
  refine ⟨?_, ?_, ?_, ?_⟩
  · intro hp
    exact initiate_no_product db tid pid now ok user hu hp
  · intro product hp ha
    exact initiate_inactive db tid pid now ok user product hu hp ha
  · intro product hp ha hbal
    rw [initiate_active db tid pid now ok user product hu hp ha]
    exact create_order_insufficient db user product now ok hbal
  · intro product hp ha hbal hf
    rw [initiate_active db tid pid now ok user product hu hp ha]
    exact create_order_no_code db user product now ok hbal hf

/-- C7 at concrete inputs: bob sees `out_of_stock` for the inactive
product 2 although he could never afford it either, and
`insufficient_balance` for the active, in-stock product 1. -/
theorem c7_precondition_order_witness :
    initiate_purchase dbW 2 2 0 true = ((none, "out_of_stock"), dbW) ∧
    initiate_purchase dbW 2 1 0 true = ((none, "insufficient_balance"), dbW) :=
  ⟨(c7_precondition_order dbW 2 2 0 true bobW (by decide)).2.1 product2W
      (by decide) (by decide),
   (c7_precondition_order dbW 2 1 0 true bobW (by decide)).2.2.1 product1W
      (by decide) (by decide) (by decide)⟩

lemma approve_pending_eq (db : DB) (topup_id admin_id : Nat) (amount : Money)
    (now : Nat) (topup : TopUp)
    (hfind : db.topups.find? (fun t => t.id == topup_id) = some topup)
    (hpend : topup.status = TopUpStatus.pending) :
    approve_topup db topup_id admin_id amount now =
      (true,
       { db with
           topups := db.topups.map (fun t =>
             if t.id = topup.id then
               { t with amount_usd := amount,
                        status := TopUpStatus.approved,
                        approved_at := some now }
             else t),
           users := db.users.map (fun u =>
             if u.id = topup.user_id then
               { u with balance_usd := u.balance_usd + amount }
             else u),
           logs := db.logs ++
             [{ id := db.nextLogId, admin_id := admin_id,
                action := "Approved TopUp" }],
           nextLogId := db.nextLogId + 1 }) := by
  simp [approve_topup, hfind, hpend]

lemma approve_nonpending (db : DB) (topup_id admin_id : Nat) (amount : Money)
    (now : Nat) (topup : TopUp)
    (hfind : db.topups.find? (fun t => t.id == topup_id) = some topup)
    (hnp : topup.status ≠ TopUpStatus.pending) :
    approve_topup db topup_id admin_id amount now = (false, db) := by
  simp [approve_topup, hfind, hnp]

lemma approve_then_find (db : DB) (topup_id admin_id : Nat) (amount : Money)
    (now : Nat) (topup : TopUp)
    (hfind : db.topups.find? (fun t => t.id == topup_id) = some topup)
    (hpend : topup.status = TopUpStatus.pending) :
    (approve_topup db topup_id admin_id amount now).2.topups.find?
        (fun t => t.id == topup_id)
      = some { topup with amount_usd := amount,
                          status := TopUpStatus.approved,
                          approved_at := some now } := by
  rw [approve_pending_eq db topup_id admin_id amount now topup hfind hpend]
  have hkey := find?_key_map (fun t : TopUp => t.id)
    (fun t => { t with amount_usd := amount,
                       status := TopUpStatus.approved,
                       approved_at := some now })
    topup.id topup_id (fun t => rfl) db.topups
  simp only [hkey, hfind, Option.map_some]
  simp

lemma approve_then_users (db : DB) (topup_id admin_id : Nat) (amount : Money)
    (now : Nat) (topup : TopUp) (user : User)
    (hfind : db.topups.find? (fun t => t.id == topup_id) = some topup)
    (hpend : topup.status = TopUpStatus.pending)
    (huser : db.users.find? (fun u => u.id == topup.user_id) = some user) :
    (approve_topup db topup_id admin_id amount now).2.users.find?
        (fun u => u.id == topup.user_id)
      = some { user with balance_usd := user.balance_usd + amount } := by
  rw [approve_pending_eq db topup_id admin_id amount now topup hfind hpend]
  have hkey := find?_key_map (fun u : User => u.id)
    (fun u => { u with balance_usd := u.balance_usd + amount })
    topup.user_id topup.user_id (fun u => rfl) db.users
  simp only [hkey, huser, Option.map_some]
  have hid : user.id = topup.user_id := by
    have := List.find?_some huser
    simpa using this
  simp [hid]

/-- C3: approving a currently pending top-up stamps the admin-supplied
amount, flips the status to approved, sets the approval time, credits the
owning user's balance by exactly that amount and returns `True`, all in the
one returned (committed) state. -/
theorem c3_approve_pending_topup (db : DB) (topup_id admin_id : Nat)
    (amount : Money) (now : Nat) (topup : TopUp) (user : User)
    (hfind : db.topups.find? (fun t => t.id == topup_id) = some topup)
    (hpend : topup.status = TopUpStatus.pending)
    (huser : db.users.find? (fun u => u.id == topup.user_id) = some user) :
    (approve_topup db topup_id admin_id amount now).1 = true ∧
    (approve_topup db topup_id admin_id amount now).2.topups.find?
        (fun t => t.id == topup_id)
      = some { topup with amount_usd := amount,
                          status := TopUpStatus.approved,
                          approved_at := some now } ∧
    (approve_topup db topup_id admin_id amount now).2.users.find?
        (fun u => u.id == topup.user_id)
      = some { user with balance_usd := user.balance_usd + amount } := by
  refine ⟨?_, approve_then_find db topup_id admin_id amount now topup
      hfind hpend,
    approve_then_users db topup_id admin_id amount now topup user
      hfind hpend huser⟩
  rw [approve_pending_eq db topup_id admin_id amount now topup hfind hpend]

/-- C3 at a concrete input: approving alice's pending request 1 with
amount 20 marks it approved and credits her balance from 10 to 10 + 20. -/
theorem c3_approve_pending_topup_witness :
    (approve_topup dbW 1 2 20 7).1 = true ∧
    (approve_topup dbW 1 2 20 7).2.topups.find? (fun t => t.id == 1)
      = some { topup1W with amount_usd := 20,
                            status := TopUpStatus.approved,
                            approved_at := some 7 } ∧
    (approve_topup dbW 1 2 20 7).2.users.find? (fun u => u.id == topup1W.user_id)
      = some { aliceW with balance_usd := aliceW.balance_usd + 20 } :=
  c3_approve_pending_topup dbW 1 2 20 7 topup1W aliceW (by decide) (by decide)
    (by decide)

/-- C4: after a successful approval of a pending request, a second
`approve_topup` on the same request observes the no-longer-pending status,
returns `False`, changes nothing, and the owning user's balance has been
credited exactly once (only the first call's amount). -/
theorem c4_approve_idempotent (db : DB) (topup_id admin_id admin_id2 : Nat)
    (amount amount2 : Money) (now now2 : Nat) (topup : TopUp) (user : User)
    (hfind : db.topups.find? (fun t => t.id == topup_id) = some topup)
    (hpend : topup.status = TopUpStatus.pending)
    (huser : db.users.find? (fun u => u.id == topup.user_id) = some user) :
    approve_topup (approve_topup db topup_id admin_id amount now).2
        topup_id admin_id2 amount2 now2
      = (false, (approve_topup db topup_id admin_id amount now).2) ∧
    (approve_topup (approve_topup db topup_id admin_id amount now).2
        topup_id admin_id2 amount2 now2).2.users.find?
        (fun u => u.id == topup.user_id)
      = some { user with balance_usd := user.balance_usd + amount } := by
  have hsecond : approve_topup (approve_topup db topup_id admin_id amount now).2
      topup_id admin_id2 amount2 now2
      = (false, (approve_topup db topup_id admin_id amount now).2) := by
    apply approve_nonpending _ _ _ _ _
      { topup with amount_usd := amount,
                   status := TopUpStatus.approved,
                   approved_at := some now }
      (approve_then_find db topup_id admin_id amount now topup hfind hpend)
    simp
  refine ⟨hsecond, ?_⟩
  rw [hsecond]
  exact approve_then_users db topup_id admin_id amount now topup user
    hfind hpend huser

/-- C4 at a concrete input: approving request 1 twice (20 then 999) leaves
the second call rejected and alice credited only once, at 10 + 20. -/
theorem c4_approve_idempotent_witness :
    approve_topup (approve_topup dbW 1 2 20 7).2 1 2 999 8
      = (false, (approve_topup dbW 1 2 20 7).2) ∧
    (approve_topup (approve_topup dbW 1 2 20 7).2 1 2 999 8).2.users.find?
        (fun u => u.id == topup1W.user_id)
      = some { aliceW with balance_usd := aliceW.balance_usd + 20 } :=
  c4_approve_idempotent dbW 1 2 2 20 999 7 8 topup1W aliceW (by decide)
    (by decide) (by decide)

/-- C10: the first `get_or_create_user` for a Telegram id appends exactly one
fresh user row with balance 0, language `"en"` and `is_banned = false`; a
second call for the same id adds no row, returns that same user with an
unchanged balance, and at most its username is refreshed to the newly
supplied value. -/
theorem c10_get_or_create_idempotent (db : DB) (tid : Nat) (un un2 : String)
    (hn : db.users.find? (fun u => u.telegram_id == toString tid) = none) :
    ((get_or_create_user db tid un).2.users
        = db.users ++ [(get_or_create_user db tid un).1]) ∧
    (get_or_create_user db tid un).1.balance_usd = 0 ∧
    (get_or_create_user db tid un).1.language = "en" ∧
    (get_or_create_user db tid un).1.is_banned = false ∧
    (get_or_create_user db tid un).1.username = un ∧
    (get_or_create_user db tid un).1.telegram_id = toString tid ∧
    ((get_or_create_user (get_or_create_user db tid un).2 tid un2).2.users.length
        = db.users.length + 1) ∧
    ((get_or_create_user (get_or_create_user db tid un).2 tid un2).1
        = { (get_or_create_user db tid un).1 with username := un2 }) := by
  simp only [get_or_create_user, hn, List.find?_append, Option.none_or,
    List.find?_cons, beq_self_eq_true]
  by_cases hname : un = un2
  · subst hname
    simp [List.length_append]
  · simp only [if_neg hname]
    simp [List.length_append, List.length_map]

/-- C10 at a concrete input: Telegram id 3 is registered twice on the sample
store, the second time under a different username. -/
theorem c10_get_or_create_idempotent_witness :
    ((get_or_create_user dbW 3 "carol").2.users
        = dbW.users ++ [(get_or_create_user dbW 3 "carol").1]) ∧
    (get_or_create_user dbW 3 "carol").1.balance_usd = 0 ∧
    (get_or_create_user dbW 3 "carol").1.language = "en" ∧
    (get_or_create_user dbW 3 "carol").1.is_banned = false ∧
    (get_or_create_user dbW 3 "carol").1.username = "carol" ∧
    (get_or_create_user dbW 3 "carol").1.telegram_id = toString 3 ∧
    ((get_or_create_user (get_or_create_user dbW 3 "carol").2 3 "carole").2.users.length
        = dbW.users.length + 1) ∧
    ((get_or_create_user (get_or_create_user dbW 3 "carol").2 3 "carole").1
        = { (get_or_create_user dbW 3 "carol").1 with username := "carole" }) :=
  c10_get_or_create_idempotent dbW 3 "carol" "carole" (by decide)

lemma userInv_parts_map (l : List User) (n : Nat) (f : User → User)
    (hid : ∀ u, (f u).id = u.id)
    (hbal : ∀ u ∈ l, 0 ≤ (f u).balance_usd)
    (hnd : (l.map (fun u => u.id)).Nodup)
    (hlt : ∀ u ∈ l, u.id < n) :
    ((l.map f).map (fun u => u.id)).Nodup ∧ (∀ u ∈ l.map f, u.id < n) ∧
      (∀ u ∈ l.map f, 0 ≤ u.balance_usd) := by
  refine ⟨?_, ?_, ?_⟩
  · have hmm : (l.map f).map (fun u => u.id) = l.map (fun u => u.id) := by
      rw [List.map_map]
      apply List.map_congr_left
      intro u _
      exact hid u
    rw [hmm]
    exact hnd
  · intro u hu
    obtain ⟨v, hv, hveq⟩ := List.mem_map.mp hu
    rw [← hveq, hid]
    exact hlt v hv
  · intro u hu
    obtain ⟨v, hv, hveq⟩ := List.mem_map.mp hu
    rw [← hveq]
    exact hbal v hv

lemma step_userInv (db : DB) (op : Op) (h : UserInv db) (hop : opOK op) :
    UserInv (step db op) := by
  obtain ⟨hnd, hlt, hnn⟩ := h
  cases op with
  | getOrCreateUser tid un =>
      simp only [step]
      cases hu : db.users.find? (fun u => u.telegram_id == toString tid) with
      | none =>
          simp only [get_or_create_user, hu]
          refine ⟨?_, ?_, ?_⟩
          · simp only [List.map_append, List.map_cons, List.map_nil]
            apply nodup_snoc _ _ hnd
            intro hmem
            obtain ⟨v, hv, hvid⟩ := List.mem_map.mp hmem
            exact absurd hvid (Nat.ne_of_lt (hlt v hv))
          · intro u hu'
            rcases List.mem_append.mp hu' with hu' | hu'
            · exact Nat.lt_succ_of_lt (hlt u hu')
            · rcases List.mem_cons.mp hu' with h1 | h1
              · subst h1
                exact Nat.lt_succ_self _
              · cases h1
          · intro u hu'
            rcases List.mem_append.mp hu' with hu' | hu'
            · exact hnn u hu'
            · rcases List.mem_cons.mp hu' with h1 | h1
              · subst h1
                exact le_refl 0
              · cases h1
      | some u =>
          simp only [get_or_create_user, hu]
          by_cases he : u.username = un
          · simp only [if_pos he]
            exact ⟨hnd, hlt, hnn⟩
          · simp only [if_neg he]
            apply userInv_parts_map db.users db.nextUserId _ ?_ ?_ hnd hlt
            · intro v
              by_cases hv : v.telegram_id = toString tid <;> simp [hv]
            · intro v hv
              by_cases hc : v.telegram_id = toString tid <;> simp [hc, hnn v hv]
  | setLanguage tid lc =>
      simp only [step, set_language]
      cases hu : get_user_by_telegram_id db tid with
      | none => exact ⟨hnd, hlt, hnn⟩
      | some u =>
          apply userInv_parts_map db.users db.nextUserId _ ?_ ?_ hnd hlt
          · intro v
            by_cases hv : v.telegram_id = toString tid <;> simp [hv]
          · intro v hv
            by_cases hc : v.telegram_id = toString tid <;> simp [hc, hnn v hv]
  | addProduct n p =>
      exact ⟨hnd, hlt, hnn⟩
  | addCodes pid cs =>
      simp only [step, add_codes]
      by_cases hc : ((db.codes ++
          (addCodesLoop db.codes pid db.nextCodeId cs).1).map
            (fun c => c.code)).Nodup
      · simp only [if_pos hc]
        exact ⟨hnd, hlt, hnn⟩
      · simp only [if_neg hc]
        exact ⟨hnd, hlt, hnn⟩
  | placeOrder tid pid now ok =>
      simp only [step]
      by_cases hs : (initiate_purchase db tid pid now ok).1.2 = "success"
      · obtain ⟨user, product, code, hu, hp, ha, hbal, hf, hdisj, heq⟩ :=
          initiate_success_inversion db tid pid now ok hs
        rw [heq]
        apply userInv_parts_map db.users db.nextUserId _ ?_ ?_ hnd hlt
        · intro v
          by_cases hv : v.id = user.id <;> simp [hv]
        · intro v hv
          by_cases hvid : v.id = user.id
          · have hveq : v = user :=
              List.inj_on_of_nodup_map hnd hv
                (List.mem_of_find?_eq_some hu) hvid
            subst hveq
            simp only [if_pos hvid]
            have hge : product.price_usd ≤ v.balance_usd := le_of_not_lt hbal
            simpa using sub_nonneg.mpr hge
          · simp [hvid, hnn v hv]
      · rw [initiate_not_success db tid pid now ok hs]
        exact ⟨hnd, hlt, hnn⟩
  | requestTopUp tid m note =>
      simp only [step, create_topup_request]
      cases hu : get_user_by_telegram_id db tid with
      | none => exact ⟨hnd, hlt, hnn⟩
      | some u => exact ⟨hnd, hlt, hnn⟩
  | approveTopUp t a amt now =>
      simp only [step]
      cases hf : db.topups.find? (fun x => x.id == t) with
      | none =>
          simp only [approve_topup, hf]
          exact ⟨hnd, hlt, hnn⟩
      | some topup =>
          by_cases hp : topup.status = TopUpStatus.pending
          · rw [approve_pending_eq db t a amt now topup hf hp]
            apply userInv_parts_map db.users db.nextUserId _ ?_ ?_ hnd hlt
            · intro v
              by_cases hv : v.id = topup.user_id <;> simp [hv]
            · intro v hv
              by_cases hvid : v.id = topup.user_id
              · simp only [if_pos hvid]
                have hamt : (0 : Money) ≤ amt := hop
                simpa using add_nonneg (hnn v hv) hamt
              · simp [hvid, hnn v hv]
          · rw [approve_nonpending db t a amt now topup hf hp]
            exact ⟨hnd, hlt, hnn⟩
  | banUser uid aid =>
      simp only [step, ban_user]
      cases hf : db.users.find? (fun u => u.id == uid) with
      | none => exact ⟨hnd, hlt, hnn⟩
      | some u =>
          apply userInv_parts_map db.users db.nextUserId _ ?_ ?_ hnd hlt
          · intro v
            by_cases hv : v.id = uid <;> simp [hv]
          · intro v hv
            by_cases hc : v.id = uid <;> simp [hc, hnn v hv]
  | setPrice pid pr =>
      exact ⟨hnd, hlt, hnn⟩

lemma run_userInv (db : DB) (ops : List Op) (h : UserInv db)
    (hops : ∀ op ∈ ops, opOK op) : UserInv (run db ops) := by
  induction ops generalizing db with
  | nil => exact h
  | cons op rest ih =>
      exact ih (step db op)
        (step_userInv db op h (hops op (List.mem_cons_self op rest)))
        (fun o ho => hops o (List.mem_cons_of_mem op ho))

/-- C2 counterexample: the claim fails as stated because `approve_topup`
never validates the admin-supplied amount.  Approving the pending request of
a user with balance 0 with amount `-1` drives that balance to `-1 < 0`. -/
theorem c2_balance_nonneg_counterexample :
    (run dbC2 [Op.approveTopUp 1 1 (-1) 0]).users.map (fun u => u.balance_usd)
        = [(-1 : Money)] ∧
    ((-1 : Money) < 0) := by
  constructor
  · have happrove := approve_pending_eq dbC2 1 1 (-1) 0 topupC2W (by decide)
      (by decide)
    simp only [run, step, happrove]
    simp [dbC2, bobW, topupC2W]
  · norm_num

/-- C2 (amended): provided every `approve_topup` in the sequence carries a
non-negative amount, every user's balance stays non-negative after every
operation; independently, a debit that would make the balance negative (the
balance is below the price) fails with `insufficient_balance` and leaves the
whole state unchanged. -/
theorem c2_balance_nonneg (db : DB) (ops : List Op)
    (hinv : UserInv db) (hops : ∀ op ∈ ops, opOK op) :
    (∀ u ∈ (run db ops).users, 0 ≤ u.balance_usd) ∧
    (∀ (user : User) (product : Product) (now : Nat) (ok : Bool),
      user.balance_usd < product.price_usd →
      create_order db user product now ok
        = ((none, "insufficient_balance"), db)) := by
  refine ⟨(run_userInv db ops hinv hops).2.2, ?_⟩
  intro user product now ok hlt
  exact create_order_insufficient db user product now ok hlt

/-- C2 (amended) at a concrete input: a top-up of 20 followed by a purchase
and bob's failing debit on the sample store. -/
theorem c2_balance_nonneg_witness :
    (∀ u ∈ (run dbW [Op.approveTopUp 1 2 20 7,
        Op.placeOrder 1 1 0 true]).users, 0 ≤ u.balance_usd) ∧
    create_order dbW bobW product1W 0 true
      = ((none, "insufficient_balance"), dbW) := by
  have hops : ∀ op ∈ [Op.approveTopUp 1 2 20 7, Op.placeOrder 1 1 0 true],
      opOK op := by
    intro op hop
    rcases List.mem_cons.mp hop with h1 | hop
    · subst h1
      exact (by decide : (0 : Money) ≤ 20)
    · rcases List.mem_cons.mp hop with h1 | hop
      · subst h1
        trivial
      · cases hop
  have hmain := c2_balance_nonneg dbW
    [Op.approveTopUp 1 2 20 7, Op.placeOrder 1 1 0 true]
    (by unfold UserInv; decide) hops
  exact ⟨hmain.1, hmain.2 bobW product1W 0 true (by decide)⟩

lemma step_orders_append (db : DB) (op : Op) :
    ∃ rest, (step db op).orders = db.orders ++ rest := by
  cases op with
  | getOrCreateUser tid un =>
      simp only [step]
      cases hu : db.users.find? (fun u => u.telegram_id == toString tid) with
      | none =>
          refine ⟨[], ?_⟩
          simp [get_or_create_user, hu]
      | some u =>
          refine ⟨[], ?_⟩
          by_cases he : u.username = un <;> simp [get_or_create_user, hu, he]
  | setLanguage tid lc =>
      refine ⟨[], ?_⟩
      simp only [step, set_language]
      cases hu : get_user_by_telegram_id db tid <;> simp
  | addProduct n p =>
      exact ⟨[], by simp [step, add_product]⟩
  | addCodes pid cs =>
      refine ⟨[], ?_⟩
      rw [List.append_nil]
      simp only [step]
      cases hadd : add_codes db pid cs with
      | error e => rfl
      | ok r =>
          unfold add_codes at hadd
          split at hadd
          · injection hadd with h1
            rw [← h1]
          · simp at hadd
  | placeOrder tid pid now ok =>
      simp only [step]
      by_cases hs : (initiate_purchase db tid pid now ok).1.2 = "success"
      · obtain ⟨user, product, code, hu, hp, ha, hbal, hf, hdisj, heq⟩ :=
          initiate_success_inversion db tid pid now ok hs
        rw [heq]
        exact ⟨[{ id := db.nextOrderId, user_id := user.id,
                  product_id := product.id, product_code_id := code.id,
                  price_usd := product.price_usd,
                  delivery_type := DeliveryType.text,
                  status := OrderStatus.completed }], rfl⟩
      · rw [initiate_not_success db tid pid now ok hs]
        exact ⟨[], by simp⟩
  | requestTopUp tid m note =>
      refine ⟨[], ?_⟩
      simp only [step, create_topup_request]
      cases hu : get_user_by_telegram_id db tid <;> simp
  | approveTopUp t a amt now =>
      refine ⟨[], ?_⟩
      simp only [step]
      cases hf : db.topups.find? (fun x => x.id == t) with
      | none => simp [approve_topup, hf]
      | some topup =>
          by_cases hp : topup.status = TopUpStatus.pending
          · rw [approve_pending_eq db t a amt now topup hf hp]
            simp
          · rw [approve_nonpending db t a amt now topup hf hp]
            simp
  | banUser uid aid =>
      refine ⟨[], ?_⟩
      simp only [step, ban_user]
      cases hf : db.users.find? (fun u => u.id == uid) <;> simp
  | setPrice pid pr =>
      exact ⟨[], by simp [step, set_price]⟩

lemma run_orders_prefix (db : DB) (ops : List Op) :
    ∃ rest, (run db ops).orders = db.orders ++ rest := by
  induction ops generalizing db with
  | nil => exact ⟨[], (List.append_nil _).symm⟩
  | cons op rest ih =>
      obtain ⟨r1, h1⟩ := step_orders_append db op
      obtain ⟨r2, h2⟩ := ih (step db op)
      refine ⟨r1 ++ r2, ?_⟩
      simp only [run]
      rw [h2, h1, List.append_assoc]

/-- C8: an order row, once inserted, survives every later operation
unchanged — any run only appends to the order table — and the price it
records is snapshotted from the product at the moment of purchase, so a later
product price change cannot alter it. -/
theorem c8_orders_immutable (db : DB) (ops : List Op) (user : User)
    (product : Product) (now : Nat) (ok : Bool) (ord : Order)
    (hord : (create_order db user product now ok).1.1 = some ord) :
    ord.price_usd = product.price_usd ∧
    ∃ rest, (run db ops).orders = db.orders ++ rest := by
  refine ⟨?_, run_orders_prefix db ops⟩
  by_cases hbal : user.balance_usd < product.price_usd
  · rw [create_order_insufficient db user product now ok hbal] at hord
    simp at hord
  · cases hf : db.codes.find?
        (fun c => c.product_id == product.id && !c.is_sold) with
    | none =>
        rw [create_order_no_code db user product now ok hbal hf] at hord
        simp at hord
    | some code =>
        cases hg : ok && db.orders.all
            (fun o => o.product_code_id != code.id) with
        | false =>
            rw [create_order_commit_fail db user product now ok code
              hbal hf hg] at hord
            simp at hord
        | true =>
            rw [create_order_success_eq db user product now ok code
              hbal hf hg] at hord
            simp only [Option.some.injEq] at hord
            rw [← hord]

/-- C8 at a concrete input: alice's order on the sample store records
price 5, and an admin price change to 999 only appends to (never edits) the
order table. -/
theorem c8_orders_immutable_witness :
    order1W.price_usd = product1W.price_usd ∧
    ∃ rest, (run dbW [Op.setPrice 1 999]).orders = dbW.orders ++ rest :=
  c8_orders_immutable dbW [Op.setPrice 1 999] aliceW product1W 0 true order1W
    (by decide)

/-- C9 (divergence at the failing input): `add_codes` promises to skip
duplicates and return the number of added codes, and committed stores indeed
never hold two rows with one code string — but a single upload containing
the same (stripped) code twice stages the row twice, because the
`autoflush=False` existence check only sees committed rows; the commit then
violates the unique index and raises, so nothing is added and no count is
returned.  Deduplicated uploads behave as documented: an already-stored code
is skipped, a fresh one is inserted once and counted. -/
theorem c9_add_codes_duplicate_raises :
    add_codes dbW 1 [" NEW-1 ", "NEW-1"] = Except.error () ∧
    add_codes dbW 1 ["CODE-A"] = Except.ok (0, dbW) ∧
    add_codes dbW 1 ["NEW-1"]
      = Except.ok (1,
          { dbW with
              codes := dbW.codes ++
                [{ id := 3, product_id := 1, code := "NEW-1",
                   is_sold := false, sold_at := none }],
              nextCodeId := 4 }) := by
  refine ⟨by decide, by decide, by decide⟩

end TelegramBot
